import Mathlib

/-!
Verification of the operation-to-tool compiler of the medusa-mcp repository.

The embedding models the two structurally identical services
(`MedusaAdminService` in `src/services/medusa-admin.ts` and
`MedusaStoreService`): the operation catalog, the schema synthesizer,
the request builder (handler) and the tool compiler (`defineTools`).

Modelling conventions:
- JS strings are Lean `String`s; a JS object is an association list
  `List (String × _)` in key-insertion order with pairwise distinct keys
  (JS objects cannot hold a key twice); an absent key is `alookup = none`.
- A JS value reaching a handler is a `Value`; JS `null` is `Value.vNull`
  and an absent key plays the role of `undefined` (the source treats the
  two identically: `value === undefined || value === null`).
- Numbers are modelled as integers; no claim exercises non-integral
  numeric formatting.
- The spec's data model (§3) gives every operation descriptor an ordered
  (possibly empty) sequence of parameter descriptors, so `parameters` is
  a total `List Parameter`; a missing `parameters` field of the raw JSON
  is the empty list, matching the `?? []` fallbacks of the source.
- An absent `operationId` and the empty `operationId` are both modelled
  as `""`: the source only ever tests the field for JS truthiness
  (`if (!name)`, `anyRef.get.operationId`), which identifies the two.
- The mutable `this.adminToken` field is read by the handler at
  invocation time, so the handler takes the current token value as an
  explicit argument; its initial value at construction is
  `adminTokenInit`.
-/

namespace Medusa

/-- A JS runtime value as it can appear in a tool handler's input object. -/
inductive Value where
  | vNull : Value
  | vStr (s : String) : Value
  | vNum (n : Int) : Value
  | vBool (b : Bool) : Value
  | vArr (elems : List Value) : Value
  | vObj (fields : List (String × Value)) : Value

mutual

/-- JS `String(value)` conversion as used by the request builder
(`String(value)` on path values, `String(v)` on query values):
strings pass through, numbers and booleans print, `null` prints "null",
arrays join their elements with "," (with `null` elements printing as
the empty string, per `Array.prototype.toString`), plain objects print
"[object Object]". -/
def Value.toJsString : Value → String
  | .vNull => "null"
  | .vStr s => s
  | .vNum n => toString n
  | .vBool b => cond b "true" "false"
  | .vArr es => String.intercalate "," (Value.arrElemStrings es)
  | .vObj _ => "[object Object]"

/-- Element-wise conversion inside `Array.prototype.toString`:
`null` elements become the empty string. -/
def Value.arrElemStrings : List Value → List String
  | [] => []
  | .vNull :: rest => "" :: Value.arrElemStrings rest
  | v :: rest => Value.toJsString v :: Value.arrElemStrings rest

end

/-- `schema` object of a parameter descriptor (`param.schema.type`). -/
structure ParamSchemaObj where
  «type» : String
deriving DecidableEq

/-- A parameter descriptor of the catalog (`Parameter` of
`src/types/admin-json`): `name`, `in` (location: "path" | "query" |
"header") and the declared schema. -/
structure Parameter where
  name : String
  «in» : String
  schema : ParamSchemaObj
deriving DecidableEq

/-- One per-method operation descriptor of the catalog:
`operationId`, `description`, `parameters`. -/
structure OpDescriptor where
  operationId : String
  description : String
  parameters : List Parameter
deriving DecidableEq

/-- A catalog entry's value: the operation descriptors sitting under the
three recognized method keys `get`, `post`, `delete` (`SdkRequestType`). -/
structure PathItem where
  get : Option OpDescriptor
  post : Option OpDescriptor
  delete : Option OpDescriptor
deriving DecidableEq

/-- The operation catalog: `Object.entries(admin.paths)` — the routes in
document order, each with its `PathItem`. -/
abbrev Catalog : Type := List (String × PathItem)

/-- A zod validation rule as produced by the schema synthesizer; one
constructor per distinct rule expression of the source. -/
inductive SchemaRule where
  | stringOpt
  | numberOpt
  | booleanOpt
  | arrayStringOpt
  | objectOpt
  | unknownOpt
  | recordUnknownOpt
deriving DecidableEq

/-- Association-list lookup by key: JS property read `obj[k]`. -/
def alookup {α : Type} : List (String × α) → String → Option α
  | [], _ => none
  | (k', v) :: rest, k => if k' = k then some v else alookup rest k

/-- JS property assignment `obj[k] = v`: overwrite in place if the key is
present, otherwise append (JS objects keep the original position of an
overwritten key). -/
def objInsert {α : Type} : List (String × α) → String → α → List (String × α)
  | [], k, v => [(k, v)]
  | (k', v') :: rest, k, v =>
    if k' = k then (k, v) :: rest else (k', v') :: objInsert rest k v

/-- JS object spread `{...a, ...b}`: assign every field of `b` on top
of `a`, in `b`'s order. -/
def objSpread {α : Type} (a b : List (String × α)) : List (String × α) :=
  b.foldl (fun acc kv => objInsert acc kv.1 kv.2) a

/-- The dollar character that starts a JS replacement pattern. -/
def dollarChar : Char := '$'

/-- The backquote character of the JS replacement pattern for the
portion of the string preceding the match. -/
def backquoteChar : Char := Char.ofNat 96

/-- The single-quote character of the JS replacement pattern for the
portion of the string following the match. -/
def singleQuoteChar : Char := Char.ofNat 39

/-- ECMAScript `GetSubstitution` for a string pattern (no capture
groups): in the replacement string, `$$` yields a dollar, `$&` the
matched substring, a dollar-backquote the portion before the match, a
dollar-quote the portion after the match; any other dollar sequence
(including `$1`, since a string pattern has no captures) is literal. -/
def getSubstitution (matched before after : List Char) : List Char → List Char
  | [] => []
  | [c] => [c]
  | c1 :: c2 :: rest =>
    if c1 = dollarChar then
      if c2 = dollarChar then
        dollarChar :: getSubstitution matched before after rest
      else if c2 = '&' then
        matched ++ getSubstitution matched before after rest
      else if c2 = backquoteChar then
        before ++ getSubstitution matched before after rest
      else if c2 = singleQuoteChar then
        after ++ getSubstitution matched before after rest
      else c1 :: getSubstitution matched before after (c2 :: rest)
    else c1 :: getSubstitution matched before after (c2 :: rest)

/-- JS `String.prototype.replace` with a plain-string pattern, on char
lists: replace the first occurrence of `pat` only, inserting the
`GetSubstitution` expansion of `repl` (with `before` the portion of the
original string already passed); if `pat` does not occur, return the
string unchanged (an empty `pat` matches at the start, as in JS). -/
def replaceFirstL (pat repl : List Char) (before : List Char) :
    List Char → List Char
  | [] =>
    if pat.isPrefixOf ([] : List Char) then
      getSubstitution pat before [] repl
    else []
  | c :: rest =>
    if pat.isPrefixOf (c :: rest) then
      getSubstitution pat before ((c :: rest).drop pat.length) repl
        ++ (c :: rest).drop pat.length
    else c :: replaceFirstL pat repl (before ++ [c]) rest

/-- JS `s.replace(pat, repl)` for a plain-string pattern (first
occurrence only, `$`-patterns of the replacement interpreted). -/
def replaceFirst (s pat repl : String) : String :=
  ⟨replaceFirstL pat.data repl.data [] s.data⟩

/-- `URLSearchParams.set`: overwrite the first entry carried under the
key and delete the remaining ones; append at the end if the key is not
present yet. -/
def uspSet : List (String × String) → String → String → List (String × String)
  | [], k, v => [(k, v)]
  | (k', v') :: rest, k, v =>
    if k' = k then (k, v) :: rest.filter (fun p => p.1 ≠ k)
    else (k', v') :: uspSet rest k v

/-- The dispatched HTTP request: the arguments the handler hands to the
external capability `this.sdk.client.fetch(finalPath, {...})`. `body` is
`none` when the fetch options carry no `body` key at all (the `get`
case: `...(method === "get" ? \x7b\x7d : \x7b body \x7d)`). -/
structure Request where
  path : String
  method : String
  headers : List (String × String)
  query : List (String × String)
  body : Option (List (String × Value))

/-- A compiled tool record as returned by the `defineTool` callback:
name, description, input schema, handler. The handler additionally
takes the surface credential it reads at invocation time
(`this.adminToken` for the admin surface, `process.env.PUBLISHABLE_KEY`
for the store surface). -/
structure Tool where
  name : String
  description : String
  inputSchema : List (String × SchemaRule)
  handler : String → List (String × Value) → Request

/-- The `switch (param.schema.type)` of both `wrapPath`s: map a declared
parameter type to its zod rule, defaulting to the string rule. -/
def ruleOfType : String → SchemaRule
  | "string" => .stringOpt
  | "number" => .numberOpt
  | "boolean" => .booleanOpt
  | "array" => .arrayStringOpt
  | "object" => .objectOpt
  | _ => .stringOpt

/-- `paramSchema`: filter out header parameters, then fold the remaining
parameters into an object mapping each name to its rule
(`parameters.filter(p => p.in != "header").reduce(...)`). -/
def paramSchemaOf (parameters : List Parameter) : List (String × SchemaRule) :=
  (parameters.filter (fun p => p.«in» != "header")).foldl
    (fun acc param => objInsert acc param.name (ruleOfType param.schema.«type»)) []

/-- The admin surface's static body-field catalog (`bodySchema` of
`medusa-admin.ts` for non-get methods), fields in source order, the
trailing twelve coming from the `Object.fromEntries` catch-all. -/
def adminBodySchema : List (String × SchemaRule) :=
  [("title", .stringOpt), ("description", .stringOpt), ("subtitle", .stringOpt),
   ("handle", .stringOpt), ("status", .stringOpt), ("sku", .stringOpt),
   ("options", .unknownOpt), ("variants", .unknownOpt), ("images", .unknownOpt),
   ("prices", .unknownOpt), ("metadata", .unknownOpt), ("tags", .unknownOpt),
   ("type", .unknownOpt), ("collection_id", .stringOpt), ("categories", .unknownOpt),
   ("manage_inventory", .booleanOpt), ("allow_backorder", .booleanOpt),
   ("weight", .unknownOpt), ("length", .unknownOpt), ("height", .unknownOpt),
   ("width", .unknownOpt), ("hs_code", .unknownOpt), ("mid_code", .unknownOpt),
   ("material", .unknownOpt), ("origin_country", .unknownOpt),
   ("discountable", .unknownOpt), ("is_giftcard", .unknownOpt),
   ("thumbnail", .unknownOpt), ("external_id", .unknownOpt)]

/-- The store surface's static body-field catalog (`bodySchema` of the
store service for non-get methods), fields in source order, the trailing
five coming from its `Object.fromEntries` catch-all. -/
def storeBodySchema : List (String × SchemaRule) :=
  [("email", .stringOpt), ("password", .stringOpt), ("first_name", .stringOpt),
   ("last_name", .stringOpt), ("phone", .stringOpt), ("company", .stringOpt),
   ("address_1", .stringOpt), ("address_2", .stringOpt), ("city", .stringOpt),
   ("country_code", .stringOpt), ("province", .stringOpt),
   ("postal_code", .stringOpt), ("metadata", .recordUnknownOpt),
   ("items", .unknownOpt), ("shipping_address", .unknownOpt),
   ("billing_address", .unknownOpt), ("context", .unknownOpt),
   ("region_id", .unknownOpt)]

/-- Handler step 2 (`// Replace path parameters in URL`): for each
declared path-parameter name whose input value is neither undefined nor
null, replace the first `\x7bname\x7d` occurrence in the path with the
value's string form. -/
def buildFinalPath (refPath : String) (pathParamNames : List String)
    (input : List (String × Value)) : String :=
  pathParamNames.foldl
    (fun finalPath paramName =>
      match alookup input paramName with
      | none => finalPath
      | some .vNull => finalPath
      | some v =>
        replaceFirst finalPath ("\x7b" ++ paramName ++ "\x7d") v.toJsString)
    refPath

/-- Handler step 3 (`const query = new URLSearchParams(); ...`): for
each declared query-parameter name, skip null/undefined values, append
one entry per element for an array value, otherwise set a single entry
to the value's string form. -/
def buildQuery (queryParamNames : List String)
    (input : List (String × Value)) : List (String × String) :=
  queryParamNames.foldl
    (fun query name =>
      match alookup input name with
      | none => query
      | some .vNull => query
      | some (.vArr es) =>
        es.foldl (fun q v => q ++ [(name, v.toJsString)]) query
      | some v => uspSet query name v.toJsString)
    []

/-- Handler step 4 (`// Build body from remaining inputs`): for non-get
methods, copy every input entry whose key is not a declared query- or
path-parameter name into the body object; for get, leave the body
object empty. -/
def buildBody (method : String) (queryParamNames pathParamNames : List String)
    (input : List (String × Value)) : List (String × Value) :=
  if method != "get" then
    input.foldl
      (fun body kv =>
        if queryParamNames.contains kv.1 then body
        else if pathParamNames.contains kv.1 then body
        else objInsert body kv.1 kv.2)
      []
  else []

/-- The tool record built by the success branch of
`MedusaAdminService.wrapPath`: the `Admin`-prefixed name, the decorated
description, the input schema `\x7b...paramSchema, ...bodySchema\x7d`,
and the handler closing over the route template, the method, the
parameter list and the service's mutable `adminToken` (taken here as
the handler's first argument, its value at invocation time). -/
def adminMkTool (refPath method name description : String)
    (parameters : List Parameter) : Tool :=
  { name := "Admin" ++ name
    description := "This tool helps store administors. " ++ description
    inputSchema :=
      objSpread (paramSchemaOf parameters)
        (if method != "get" then adminBodySchema else [])
    handler := fun adminToken input =>
      let queryParamNames :=
        (parameters.filter (fun p => p.«in» = "query")).map (·.name)
      let pathParamNames :=
        (parameters.filter (fun p => p.«in» = "path")).map (·.name)
      { path := buildFinalPath refPath pathParamNames input
        method := method
        headers :=
          [("Content-Type", "application/json"),
           ("Accept", "application/json"),
           ("Authorization", "Bearer " ++ adminToken)]
        query := buildQuery queryParamNames input
        body :=
          if method = "get" then none
          else some (buildBody method queryParamNames pathParamNames input) } }

/-- The tool record built by the success branch of
`MedusaStoreService.wrapPath`: undecorated name and description, the
store body catalog, and the bearer credential taken from
`process.env.PUBLISHABLE_KEY` at invocation time (the handler's first
argument). -/
def storeMkTool (refPath method name description : String)
    (parameters : List Parameter) : Tool :=
  { name := name
    description := description
    inputSchema :=
      objSpread (paramSchemaOf parameters)
        (if method != "get" then storeBodySchema else [])
    handler := fun publishableKey input =>
      let queryParamNames :=
        (parameters.filter (fun p => p.«in» = "query")).map (·.name)
      let pathParamNames :=
        (parameters.filter (fun p => p.«in» = "path")).map (·.name)
      { path := buildFinalPath refPath pathParamNames input
        method := method
        headers :=
          [("Content-Type", "application/json"),
           ("Accept", "application/json"),
           ("Authorization", "Bearer " ++ publishableKey)]
        query := buildQuery queryParamNames input
        body :=
          if method = "get" then none
          else some (buildBody method queryParamNames pathParamNames input) } }

/-- The method/name/description/parameters selection at the top of both
`wrapPath`s: probe `get`, then `post`, then `delete`; when none of the
recognized keys is present, `name` stays undefined (modelled `""`) and
`method` keeps its initial value `"get"`. -/
def selectOp (refFunction : PathItem) : String × String × String × List Parameter :=
  match refFunction.get with
  | some d => ("get", d.operationId, d.description, d.parameters)
  | none =>
    match refFunction.post with
    | some d => ("post", d.operationId, d.description, d.parameters)
    | none =>
      match refFunction.delete with
      | some d => ("delete", d.operationId, d.description, d.parameters)
      | none => ("get", "", "", [])

/-- `MedusaAdminService.wrapPath`: select the operation, throw
(`Except.error`) when no truthy name was found, otherwise produce the
compiled tool. -/
def adminWrapPath (refPath : String) (refFunction : PathItem) : Except String Tool :=
  match selectOp refFunction with
  | (method, name, description, parameters) =>
    if name = "" then .error ("No name found for path: " ++ refPath)
    else .ok (adminMkTool refPath method name description parameters)

/-- `MedusaStoreService.wrapPath`: identical selection and guard, store
tool record. -/
def storeWrapPath (refPath : String) (refFunction : PathItem) : Except String Tool :=
  match selectOp refFunction with
  | (method, name, description, parameters) =>
    if name = "" then .error ("No name found for path: " ++ refPath)
    else .ok (storeMkTool refPath method name description parameters)

/-- The first guarded push of `MedusaAdminService.defineTools`:
`if (anyRef.get && anyRef.get.operationId) tools.push(this.wrapPath(path, \x7b get: anyRef.get \x7d))`
— a tool when the `get` descriptor is present with a truthy
`operationId`, nothing otherwise; a thrown error propagates. -/
def adminGetTools (path : String) (r : PathItem) : Except String (List Tool) :=
  match r.get with
  | some d =>
    if d.operationId != "" then
      (adminWrapPath path ⟨some d, none, none⟩).map (fun t => [t])
    else .ok []
  | none => .ok []

/-- The second guarded push of `MedusaAdminService.defineTools`
(the `post` descriptor). -/
def adminPostTools (path : String) (r : PathItem) : Except String (List Tool) :=
  match r.post with
  | some d =>
    if d.operationId != "" then
      (adminWrapPath path ⟨none, some d, none⟩).map (fun t => [t])
    else .ok []
  | none => .ok []

/-- The third guarded push of `MedusaAdminService.defineTools`
(the `delete` descriptor). -/
def adminDeleteTools (path : String) (r : PathItem) : Except String (List Tool) :=
  match r.delete with
  | some d =>
    if d.operationId != "" then
      (adminWrapPath path ⟨none, none, some d⟩).map (fun t => [t])
    else .ok []
  | none => .ok []

/-- One catalog entry's contribution to `MedusaAdminService.defineTools`:
the three guarded pushes in source order — `get`, `post`, `delete`. -/
def adminEntryTools (path : String) (r : PathItem) : Except String (List Tool) :=
  match adminGetTools path r with
  | .error e => .error e
  | .ok t1 =>
    match adminPostTools path r with
    | .error e => .error e
    | .ok t2 =>
      match adminDeleteTools path r with
      | .error e => .error e
      | .ok t3 => .ok (t1 ++ t2 ++ t3)

/-- `MedusaAdminService.defineTools`: walk the catalog entries in order,
collecting every pushed tool; a thrown error aborts the walk. -/
def adminDefineTools : Catalog → Except String (List Tool)
  | [] => .ok []
  | (path, refFunction) :: rest =>
    match adminEntryTools path refFunction with
    | .error e => .error e
    | .ok ts =>
      match adminDefineTools rest with
      | .error e => .error e
      | .ok more => .ok (ts ++ more)

/-- The first guarded push of `MedusaStoreService.defineTools`
(the `get` descriptor). -/
def storeGetTools (path : String) (r : PathItem) : Except String (List Tool) :=
  match r.get with
  | some d =>
    if d.operationId != "" then
      (storeWrapPath path ⟨some d, none, none⟩).map (fun t => [t])
    else .ok []
  | none => .ok []

/-- The second guarded push of `MedusaStoreService.defineTools`
(the `post` descriptor). -/
def storePostTools (path : String) (r : PathItem) : Except String (List Tool) :=
  match r.post with
  | some d =>
    if d.operationId != "" then
      (storeWrapPath path ⟨none, some d, none⟩).map (fun t => [t])
    else .ok []
  | none => .ok []

/-- The third guarded push of `MedusaStoreService.defineTools`
(the `delete` descriptor). -/
def storeDeleteTools (path : String) (r : PathItem) : Except String (List Tool) :=
  match r.delete with
  | some d =>
    if d.operationId != "" then
      (storeWrapPath path ⟨none, none, some d⟩).map (fun t => [t])
    else .ok []
  | none => .ok []

/-- One catalog entry's contribution to `MedusaStoreService.defineTools`
(same three guarded pushes as the admin surface). -/
def storeEntryTools (path : String) (r : PathItem) : Except String (List Tool) :=
  match storeGetTools path r with
  | .error e => .error e
  | .ok t1 =>
    match storePostTools path r with
    | .error e => .error e
    | .ok t2 =>
      match storeDeleteTools path r with
      | .error e => .error e
      | .ok t3 => .ok (t1 ++ t2 ++ t3)

/-- `MedusaStoreService.defineTools`: the same ordered walk for the
store catalog. -/
def storeDefineTools : Catalog → Except String (List Tool)
  | [] => .ok []
  | (path, refFunction) :: rest =>
    match storeEntryTools path refFunction with
    | .error e => .error e
    | .ok ts =>
      match storeDefineTools rest with
      | .error e => .error e
      | .ok more => .ok (ts ++ more)

/-- The admin service's token field at construction:
`adminToken = ""` (line 18); `init()` later overwrites it with the
login result. -/
def adminTokenInit : String := ""

/-!
Spec-side definitions. The following definitions follow the words of the
specification (not the source) and exist to be compared with the
source-derived definitions above.
-/

/-- Modelled from the spec (§4.3): the qualifying `get` operation of one
catalog entry — present exactly when the `get` descriptor carries a
non-empty operation identifier. -/
def specGetOps (r : PathItem) : List (String × OpDescriptor) :=
  match r.get with
  | some d => if d.operationId ≠ "" then [("get", d)] else []
  | none => []

/-- Modelled from the spec (§4.3): the qualifying `post` operation of
one catalog entry. -/
def specPostOps (r : PathItem) : List (String × OpDescriptor) :=
  match r.post with
  | some d => if d.operationId ≠ "" then [("post", d)] else []
  | none => []

/-- Modelled from the spec (§4.3): the qualifying `delete` operation of
one catalog entry. -/
def specDeleteOps (r : PathItem) : List (String × OpDescriptor) :=
  match r.delete with
  | some d => if d.operationId ≠ "" then [("delete", d)] else []
  | none => []

/-- Modelled from the spec (§4.3): the qualifying operations of one
catalog entry — the descriptors under `get`, `post`, `delete`, in that
order, that carry a non-empty operation identifier, each tagged with its
method. -/
def specQualifyingOps (r : PathItem) : List (String × OpDescriptor) :=
  specGetOps r ++ specPostOps r ++ specDeleteOps r

/-- Modelled from the spec (§4.3): the compiled-tool sequence the admin
surface must produce — exactly one tool per qualifying (route, method)
pair, in catalog iteration order: by route, then get, post, delete. -/
def adminSpecTools (c : Catalog) : List Tool :=
  c.flatMap (fun e =>
    (specQualifyingOps e.2).map (fun md =>
      adminMkTool e.1 md.1 md.2.operationId md.2.description md.2.parameters))

/-- Modelled from the spec (§4.3): the compiled-tool sequence the store
surface must produce. -/
def storeSpecTools (c : Catalog) : List Tool :=
  c.flatMap (fun e =>
    (specQualifyingOps e.2).map (fun md =>
      storeMkTool e.1 md.1 md.2.operationId md.2.description md.2.parameters))

/-- Modelled from the spec (§4.4 step 3): the query entries one declared
query-parameter name contributes — nothing for a null/undefined value,
one entry per element in order for an array value, a single stringified
entry otherwise. -/
def specQueryEntries (input : List (String × Value)) (name : String) :
    List (String × String) :=
  match alookup input name with
  | none => []
  | some .vNull => []
  | some (.vArr es) => es.map (fun v => (name, v.toJsString))
  | some v => [(name, v.toJsString)]

/-- Modelled from the spec (§4.4 step 4): the residual body — every
input entry whose key is not a declared path- or query-parameter name,
with its original value. -/
def specResidualBody (queryParamNames pathParamNames : List String)
    (input : List (String × Value)) : List (String × Value) :=
  input.filter (fun kv =>
    !(queryParamNames.contains kv.1) && !(pathParamNames.contains kv.1))

/-! Concrete catalogs used to evaluate the compiler on explicit inputs. -/

/-- A catalog whose single route carries a `get` descriptor (a
recognized method key) without a usable operation identifier. -/
def noIdCatalog : Catalog :=
  [("/admin/widgets", ⟨some ⟨"", "a get operation without id", []⟩, none, none⟩)]

/-- The scenario catalog: one route `/admin/products/\x7bid\x7d` with
`get.operationId = "GetProduct"` and `delete.operationId =
"DeleteProduct"`. -/
def adminProductsCatalog : Catalog :=
  [("/admin/products/\x7bid\x7d",
    ⟨some ⟨"GetProduct", "Get a product", [⟨"id", "path", ⟨"string"⟩⟩]⟩,
     none,
     some ⟨"DeleteProduct", "Delete a product", [⟨"id", "path", ⟨"string"⟩⟩]⟩⟩)]

/-! Association-list object lemmas. -/

theorem alookup_objInsert_self {α : Type} (l : List (String × α)) (k : String)
    (v : α) : alookup (objInsert l k v) k = some v := by
  induction l with
  | nil => simp [objInsert, alookup]
  | cons hd tl ih =>
    obtain ⟨k', v'⟩ := hd
    by_cases h : k' = k
    · simp [objInsert, alookup, h]
    · simp [objInsert, alookup, h, ih]

theorem alookup_objInsert_ne {α : Type} (l : List (String × α)) {k' k : String}
    (v : α) (h : k' ≠ k) : alookup (objInsert l k' v) k = alookup l k := by
  induction l with
  | nil => simp [objInsert, alookup, h]
  | cons hd tl ih =>
    obtain ⟨k₀, v₀⟩ := hd
    by_cases h₀ : k₀ = k'
    · simp [objInsert, alookup, h₀, h]
    · simp [objInsert, alookup, h₀, ih]

theorem objInsert_eq_append {α : Type} {l : List (String × α)} {k : String}
    (v : α) (h : k ∉ l.map Prod.fst) : objInsert l k v = l ++ [(k, v)] := by
  induction l with
  | nil => simp [objInsert]
  | cons hd tl ih =>
    obtain ⟨k₀, v₀⟩ := hd
    simp only [List.map_cons, List.mem_cons] at h
    push_neg at h
    simp [objInsert, Ne.symm h.1, ih h.2]

theorem alookup_objSpread_not_mem {α : Type} {b : List (String × α)}
    (a : List (String × α)) {k : String} (h : k ∉ b.map Prod.fst) :
    alookup (objSpread a b) k = alookup a k := by
  induction b generalizing a with
  | nil => simp [objSpread]
  | cons hd tl ih =>
    obtain ⟨k₀, v₀⟩ := hd
    simp only [List.map_cons, List.mem_cons] at h
    push_neg at h
    show alookup (objSpread (objInsert a k₀ v₀) tl) k = alookup a k
    rw [ih (objInsert a k₀ v₀) h.2, alookup_objInsert_ne _ _ (Ne.symm h.1)]

theorem alookup_objSpread_mem {α : Type} {b : List (String × α)}
    (a : List (String × α)) {k : String} {v : α}
    (hnd : (b.map Prod.fst).Nodup) (hm : (k, v) ∈ b) :
    alookup (objSpread a b) k = some v := by
  induction b generalizing a with
  | nil => cases hm
  | cons hd tl ih =>
    obtain ⟨k₀, v₀⟩ := hd
    simp only [List.map_cons, List.nodup_cons] at hnd
    rcases List.mem_cons.mp hm with heq | htl
    · obtain ⟨hk, hv⟩ := Prod.mk.injEq .. ▸ heq
      subst hk hv
      show alookup (objSpread (objInsert a k v) tl) k = some v
      rw [alookup_objSpread_not_mem _ hnd.1, alookup_objInsert_self]
    · exact ih (objInsert a k₀ v₀) hnd.2 htl

theorem uspSet_eq_append {q : List (String × String)} {k : String} (v : String)
    (h : k ∉ q.map Prod.fst) : uspSet q k v = q ++ [(k, v)] := by
  induction q with
  | nil => simp [uspSet]
  | cons hd tl ih =>
    obtain ⟨k₀, v₀⟩ := hd
    simp only [List.map_cons, List.mem_cons] at h
    push_neg at h
    simp [uspSet, Ne.symm h.1, ih h.2]

theorem foldl_append_singleton {α β : Type} (f : α → β) (es : List α)
    (q : List β) :
    es.foldl (fun acc v => acc ++ [f v]) q = q ++ es.map f := by
  induction es generalizing q with
  | nil => simp
  | cons hd tl ih => simp [ih, List.append_assoc]

/-! Characterization of the query builder. -/

theorem specQueryEntries_keys {input : List (String × Value)} {name : String} :
    ∀ e ∈ specQueryEntries input name, e.1 = name := by
  intro e he
  unfold specQueryEntries at he
  rcases h : alookup input name with _ | v
  · simp [h] at he
  · cases v with
    | vNull => simp [h] at he
    | vStr s => simp [h] at he; subst he; rfl
    | vNum n => simp [h] at he; subst he; rfl
    | vBool b => simp [h] at he; subst he; rfl
    | vObj f => simp [h] at he; subst he; rfl
    | vArr es =>
      simp [h] at he
      obtain ⟨a, -, hk⟩ := he
      rw [← hk]

theorem buildQuery_step {input : List (String × Value)} {name : String}
    {acc : List (String × String)} (h : name ∉ acc.map Prod.fst) :
    (match alookup input name with
     | none => acc
     | some .vNull => acc
     | some (.vArr es) =>
       es.foldl (fun q v => q ++ [(name, v.toJsString)]) acc
     | some v => uspSet acc name v.toJsString)
    = acc ++ specQueryEntries input name := by
  rcases hl : alookup input name with _ | v
  · simp [specQueryEntries, hl]
  · cases v <;>
      simp [specQueryEntries, hl, uspSet_eq_append _ h,
        foldl_append_singleton (fun v : Value => (name, v.toJsString))]

theorem buildQuery_go (input : List (String × Value)) (names : List String)
    (acc : List (String × String)) (hnd : names.Nodup)
    (hdisj : ∀ k ∈ acc.map Prod.fst, k ∉ names) :
    names.foldl
      (fun query name =>
        match alookup input name with
        | none => query
        | some .vNull => query
        | some (.vArr es) =>
          es.foldl (fun q v => q ++ [(name, v.toJsString)]) query
        | some v => uspSet query name v.toJsString)
      acc
    = acc ++ names.flatMap (specQueryEntries input) := by
  induction names generalizing acc with
  | nil => simp
  | cons hd tl ih =>
    simp only [List.nodup_cons] at hnd
    have hhd : hd ∉ acc.map Prod.fst := fun hmem => hdisj hd hmem (by simp)
    rw [List.foldl_cons, buildQuery_step hhd,
      ih (acc ++ specQueryEntries input hd) hnd.2 ?_, List.flatMap_cons,
      List.append_assoc]
    intro k hk htl
    rw [List.map_append] at hk
    rcases List.mem_append.mp hk with ha | hq
    · exact hdisj k ha (List.mem_cons_of_mem _ htl)
    · rcases List.mem_map.mp hq with ⟨e, he, hke⟩
      have hh : e.1 = hd := specQueryEntries_keys e he
      rw [← hke, hh] at htl
      exact hnd.1 htl

theorem buildQuery_eq_spec (queryParamNames : List String)
    (input : List (String × Value)) (hnd : queryParamNames.Nodup) :
    buildQuery queryParamNames input
      = queryParamNames.flatMap (specQueryEntries input) := by
  unfold buildQuery
  simpa using buildQuery_go input queryParamNames [] hnd (by simp)

/-! Characterization of the body builder. -/

theorem buildBody_go (queryParamNames pathParamNames : List String)
    (input acc : List (String × Value))
    (hnd : (input.map Prod.fst).Nodup)
    (hdisj : ∀ k ∈ acc.map Prod.fst, k ∉ input.map Prod.fst) :
    input.foldl
      (fun body kv =>
        if queryParamNames.contains kv.1 then body
        else if pathParamNames.contains kv.1 then body
        else objInsert body kv.1 kv.2)
      acc
    = acc ++ specResidualBody queryParamNames pathParamNames input := by
  induction input generalizing acc with
  | nil => simp [specResidualBody]
  | cons hd tl ih =>
    obtain ⟨k, v⟩ := hd
    simp only [List.map_cons, List.nodup_cons] at hnd
    have hdisj' : ∀ k' ∈ acc.map Prod.fst, k' ∉ tl.map Prod.fst :=
      fun k' hk' htl => hdisj k' hk' (List.mem_cons_of_mem _ htl)
    rw [List.foldl_cons]
    simp only [show ((k, v) : String × Value).1 = k from rfl,
      show ((k, v) : String × Value).2 = v from rfl]
    by_cases hq : queryParamNames.contains k = true
    · rw [if_pos hq, ih acc hnd.2 hdisj']
      have hq' : k ∈ queryParamNames := by simpa using hq
      simp [specResidualBody, List.filter_cons, hq']
    · by_cases hp : pathParamNames.contains k = true
      · rw [if_neg hq, if_pos hp, ih acc hnd.2 hdisj']
        have hp' : k ∈ pathParamNames := by simpa using hp
        simp [specResidualBody, List.filter_cons, hp']
      · have hk : k ∉ acc.map Prod.fst := fun hmem => hdisj k hmem (by simp)
        have hnew : ∀ k' ∈ (acc ++ [(k, v)]).map Prod.fst,
            k' ∉ tl.map Prod.fst := by
          intro k' hk' htl
          rw [List.map_append] at hk'
          rcases List.mem_append.mp hk' with ha | hs
          · exact hdisj' k' ha htl
          · simp at hs
            subst hs
            exact hnd.1 htl
        rw [if_neg hq, if_neg hp, objInsert_eq_append v hk,
          ih (acc ++ [(k, v)]) hnd.2 hnew]
        have hq' : k ∉ queryParamNames := by simpa using hq
        have hp' : k ∉ pathParamNames := by simpa using hp
        simp [specResidualBody, List.filter_cons, hq', hp', List.append_assoc]

theorem buildBody_eq_spec (method : String)
    (queryParamNames pathParamNames : List String)
    (input : List (String × Value)) (hm : method ≠ "get")
    (hnd : (input.map Prod.fst).Nodup) :
    buildBody method queryParamNames pathParamNames input
      = specResidualBody queryParamNames pathParamNames input := by
  unfold buildBody
  rw [if_pos (by simpa using hm)]
  simpa using buildBody_go queryParamNames pathParamNames input [] hnd (by simp)

/-! Characterization of first-occurrence replacement. -/

theorem getSubstitution_no_dollar (matched before after repl : List Char)
    (h : ∀ c ∈ repl, c ≠ dollarChar) :
    getSubstitution matched before after repl = repl := by
  induction repl with
  | nil => rfl
  | cons c1 rest ih =>
    cases rest with
    | nil => rfl
    | cons c2 rest2 =>
      have hc1 : ¬ c1 = dollarChar := h c1 (by simp)
      simp only [getSubstitution]
      rw [if_neg hc1, ih (fun c hc => h c (List.mem_cons_of_mem _ hc))]

theorem replaceFirstL_head_match {pat s : List Char} (repl before : List Char)
    (h : pat.isPrefixOf s = true) :
    replaceFirstL pat repl before s
      = getSubstitution pat before (s.drop pat.length) repl
          ++ s.drop pat.length := by
  cases s with
  | nil => simp [replaceFirstL, h]
  | cons c cs => simp [replaceFirstL, h]

theorem isPrefixOf_append_self (pat b : List Char) :
    pat.isPrefixOf (pat ++ b) = true := by
  simp [List.isPrefixOf_iff_prefix]

/-- If the pattern occurs nowhere strictly before position `a.length` in
`a ++ pat ++ b` (so the shown occurrence is the first one),
first-occurrence replacement rewrites exactly that occurrence, inserting
the expanded replacement. -/
theorem replaceFirstL_of_unique (pat repl a b before : List Char)
    (h : ∀ i, i < a.length →
      ¬ pat.isPrefixOf ((a ++ (pat ++ b)).drop i) = true) :
    replaceFirstL pat repl before (a ++ (pat ++ b))
      = a ++ (getSubstitution pat (before ++ a) b repl ++ b) := by
  induction a generalizing before with
  | nil =>
    simp only [List.nil_append]
    rw [replaceFirstL_head_match repl before (isPrefixOf_append_self pat b),
      List.drop_left]
    simp
  | cons c a' ih =>
    have h0 : ¬ pat.isPrefixOf (c :: (a' ++ (pat ++ b))) = true := by
      simpa using h 0 (by simp)
    have h' : ∀ i, i < a'.length →
        ¬ pat.isPrefixOf ((a' ++ (pat ++ b)).drop i) = true := by
      intro i hi
      have := h (i + 1) (by simpa using Nat.succ_lt_succ hi)
      simpa [List.drop_succ_cons] using this
    simp only [List.cons_append]
    rw [show replaceFirstL pat repl before (c :: (a' ++ (pat ++ b)))
        = if pat.isPrefixOf (c :: (a' ++ (pat ++ b))) then
            getSubstitution pat before
              ((c :: (a' ++ (pat ++ b))).drop pat.length) repl
              ++ (c :: (a' ++ (pat ++ b))).drop pat.length
          else c :: replaceFirstL pat repl (before ++ [c]) (a' ++ (pat ++ b))
        from rfl,
      if_neg h0, ih (before ++ [c]) h']
    simp

/-- First-occurrence replacement at string level, for a replacement
whose string contains no dollar character (so its expansion is itself). -/
theorem replaceFirst_of_unique (a pat b repl : String)
    (hnd : ∀ c ∈ repl.data, c ≠ dollarChar)
    (h : ∀ i, i < a.data.length →
      ¬ pat.data.isPrefixOf ((a ++ pat ++ b).data.drop i) = true) :
    replaceFirst (a ++ pat ++ b) pat repl = a ++ repl ++ b := by
  apply String.ext
  show replaceFirstL pat.data repl.data [] (a ++ pat ++ b).data = _
  rw [String.data_append, String.data_append]
  rw [String.data_append, String.data_append] at h
  rw [List.append_assoc] at h ⊢
  rw [replaceFirstL_of_unique pat.data repl.data a.data b.data [] h,
    getSubstitution_no_dollar _ _ _ _ hnd]
  simp [List.append_assoc]

/-! Path substitution lemmas. -/

theorem buildFinalPath_append (refPath : String) (xs ys : List String)
    (input : List (String × Value)) :
    buildFinalPath refPath (xs ++ ys) input
      = buildFinalPath (buildFinalPath refPath xs input) ys input := by
  simp [buildFinalPath]

theorem buildFinalPath_single_absent (refPath n : String)
    (input : List (String × Value))
    (h : alookup input n = none ∨ alookup input n = some .vNull) :
    buildFinalPath refPath [n] input = refPath := by
  rcases h with h | h <;> simp [buildFinalPath, h]

theorem buildFinalPath_single_present (refPath n : String)
    (input : List (String × Value)) (v : Value)
    (hv : alookup input n = some v) (hnn : v ≠ .vNull) :
    buildFinalPath refPath [n] input
      = replaceFirst refPath ("\x7b" ++ n ++ "\x7d") v.toJsString := by
  cases v with
  | vNull => exact absurd rfl hnn
  | vStr s => simp [buildFinalPath, hv]
  | vNum m => simp [buildFinalPath, hv]
  | vBool b => simp [buildFinalPath, hv]
  | vArr es => simp [buildFinalPath, hv]
  | vObj f => simp [buildFinalPath, hv]

/-! The handler of a compiled tool, spelled out. -/

theorem adminMkTool_handler (refPath method name description : String)
    (parameters : List Parameter) (tok : String)
    (input : List (String × Value)) :
    (adminMkTool refPath method name description parameters).handler tok input
    = { path := buildFinalPath refPath
          ((parameters.filter (fun p => p.«in» = "path")).map (·.name)) input
        method := method
        headers :=
          [("Content-Type", "application/json"),
           ("Accept", "application/json"),
           ("Authorization", "Bearer " ++ tok)]
        query := buildQuery
          ((parameters.filter (fun p => p.«in» = "query")).map (·.name)) input
        body :=
          if method = "get" then none
          else some (buildBody method
            ((parameters.filter (fun p => p.«in» = "query")).map (·.name))
            ((parameters.filter (fun p => p.«in» = "path")).map (·.name))
            input) } := rfl

theorem storeMkTool_handler (refPath method name description : String)
    (parameters : List Parameter) (key : String)
    (input : List (String × Value)) :
    (storeMkTool refPath method name description parameters).handler key input
    = { path := buildFinalPath refPath
          ((parameters.filter (fun p => p.«in» = "path")).map (·.name)) input
        method := method
        headers :=
          [("Content-Type", "application/json"),
           ("Accept", "application/json"),
           ("Authorization", "Bearer " ++ key)]
        query := buildQuery
          ((parameters.filter (fun p => p.«in» = "query")).map (·.name)) input
        body :=
          if method = "get" then none
          else some (buildBody method
            ((parameters.filter (fun p => p.«in» = "query")).map (·.name))
            ((parameters.filter (fun p => p.«in» = "path")).map (·.name))
            input) } := rfl

/-! Refinement of the tool compiler against the spec-side description. -/

theorem adminWrapPath_get (p : String) (d : OpDescriptor)
    (h : ¬ d.operationId = "") :
    adminWrapPath p ⟨some d, none, none⟩
      = .ok (adminMkTool p "get" d.operationId d.description d.parameters) := by
  simp [adminWrapPath, selectOp, h]

theorem adminWrapPath_post (p : String) (d : OpDescriptor)
    (h : ¬ d.operationId = "") :
    adminWrapPath p ⟨none, some d, none⟩
      = .ok (adminMkTool p "post" d.operationId d.description d.parameters) := by
  simp [adminWrapPath, selectOp, h]

theorem adminWrapPath_delete (p : String) (d : OpDescriptor)
    (h : ¬ d.operationId = "") :
    adminWrapPath p ⟨none, none, some d⟩
      = .ok (adminMkTool p "delete" d.operationId d.description d.parameters) := by
  simp [adminWrapPath, selectOp, h]

theorem storeWrapPath_get (p : String) (d : OpDescriptor)
    (h : ¬ d.operationId = "") :
    storeWrapPath p ⟨some d, none, none⟩
      = .ok (storeMkTool p "get" d.operationId d.description d.parameters) := by
  simp [storeWrapPath, selectOp, h]

theorem storeWrapPath_post (p : String) (d : OpDescriptor)
    (h : ¬ d.operationId = "") :
    storeWrapPath p ⟨none, some d, none⟩
      = .ok (storeMkTool p "post" d.operationId d.description d.parameters) := by
  simp [storeWrapPath, selectOp, h]

theorem storeWrapPath_delete (p : String) (d : OpDescriptor)
    (h : ¬ d.operationId = "") :
    storeWrapPath p ⟨none, none, some d⟩
      = .ok (storeMkTool p "delete" d.operationId d.description d.parameters) := by
  simp [storeWrapPath, selectOp, h]

theorem adminGetTools_eq (p : String) (r : PathItem) :
    adminGetTools p r = .ok ((specGetOps r).map (fun md =>
      adminMkTool p md.1 md.2.operationId md.2.description md.2.parameters)) := by
  cases hg : r.get with
  | none => simp [adminGetTools, specGetOps, hg]
  | some d =>
    by_cases hid : d.operationId = ""
    · simp [adminGetTools, specGetOps, hg, hid]
    · simp [adminGetTools, specGetOps, hg, hid,
        adminWrapPath_get p d hid, Except.map]

theorem adminPostTools_eq (p : String) (r : PathItem) :
    adminPostTools p r = .ok ((specPostOps r).map (fun md =>
      adminMkTool p md.1 md.2.operationId md.2.description md.2.parameters)) := by
  cases hg : r.post with
  | none => simp [adminPostTools, specPostOps, hg]
  | some d =>
    by_cases hid : d.operationId = ""
    · simp [adminPostTools, specPostOps, hg, hid]
    · simp [adminPostTools, specPostOps, hg, hid,
        adminWrapPath_post p d hid, Except.map]

theorem adminDeleteTools_eq (p : String) (r : PathItem) :
    adminDeleteTools p r = .ok ((specDeleteOps r).map (fun md =>
      adminMkTool p md.1 md.2.operationId md.2.description md.2.parameters)) := by
  cases hg : r.delete with
  | none => simp [adminDeleteTools, specDeleteOps, hg]
  | some d =>
    by_cases hid : d.operationId = ""
    · simp [adminDeleteTools, specDeleteOps, hg, hid]
    · simp [adminDeleteTools, specDeleteOps, hg, hid,
        adminWrapPath_delete p d hid, Except.map]

theorem adminEntryTools_eq (p : String) (r : PathItem) :
    adminEntryTools p r = .ok ((specQualifyingOps r).map (fun md =>
      adminMkTool p md.1 md.2.operationId md.2.description md.2.parameters)) := by
  rw [adminEntryTools, adminGetTools_eq, adminPostTools_eq, adminDeleteTools_eq]
  simp [specQualifyingOps]

theorem storeGetTools_eq (p : String) (r : PathItem) :
    storeGetTools p r = .ok ((specGetOps r).map (fun md =>
      storeMkTool p md.1 md.2.operationId md.2.description md.2.parameters)) := by
  cases hg : r.get with
  | none => simp [storeGetTools, specGetOps, hg]
  | some d =>
    by_cases hid : d.operationId = ""
    · simp [storeGetTools, specGetOps, hg, hid]
    · simp [storeGetTools, specGetOps, hg, hid,
        storeWrapPath_get p d hid, Except.map]

theorem storePostTools_eq (p : String) (r : PathItem) :
    storePostTools p r = .ok ((specPostOps r).map (fun md =>
      storeMkTool p md.1 md.2.operationId md.2.description md.2.parameters)) := by
  cases hg : r.post with
  | none => simp [storePostTools, specPostOps, hg]
  | some d =>
    by_cases hid : d.operationId = ""
    · simp [storePostTools, specPostOps, hg, hid]
    · simp [storePostTools, specPostOps, hg, hid,
        storeWrapPath_post p d hid, Except.map]

theorem storeDeleteTools_eq (p : String) (r : PathItem) :
    storeDeleteTools p r = .ok ((specDeleteOps r).map (fun md =>
      storeMkTool p md.1 md.2.operationId md.2.description md.2.parameters)) := by
  cases hg : r.delete with
  | none => simp [storeDeleteTools, specDeleteOps, hg]
  | some d =>
    by_cases hid : d.operationId = ""
    · simp [storeDeleteTools, specDeleteOps, hg, hid]
    · simp [storeDeleteTools, specDeleteOps, hg, hid,
        storeWrapPath_delete p d hid, Except.map]

theorem storeEntryTools_eq (p : String) (r : PathItem) :
    storeEntryTools p r = .ok ((specQualifyingOps r).map (fun md =>
      storeMkTool p md.1 md.2.operationId md.2.description md.2.parameters)) := by
  rw [storeEntryTools, storeGetTools_eq, storePostTools_eq, storeDeleteTools_eq]
  simp [specQualifyingOps]

theorem adminDefineTools_eq_spec (c : Catalog) :
    adminDefineTools c = .ok (adminSpecTools c) := by
  induction c with
  | nil => rfl
  | cons e rest ih =>
    obtain ⟨path, r⟩ := e
    rw [adminDefineTools, adminEntryTools_eq, ih]
    simp [adminSpecTools]

theorem storeDefineTools_eq_spec (c : Catalog) :
    storeDefineTools c = .ok (storeSpecTools c) := by
  induction c with
  | nil => rfl
  | cons e rest ih =>
    obtain ⟨path, r⟩ := e
    rw [storeDefineTools, storeEntryTools_eq, ih]
    simp [storeSpecTools]

/-! Claim theorems. -/

/-- Claim C1: for every route and every method among get, post, delete
whose descriptor carries a non-empty `operationId`, `defineTools`
produces exactly one compiled tool for that (route, method) pair and no
tool for entries lacking an identifier, in catalog iteration order (by
route, then get, post, delete) — on both surfaces. The right-hand sides
spell out exactly that tool sequence. -/
theorem defineTools_one_tool_per_qualifying_op (c : Catalog) :
    adminDefineTools c = .ok (adminSpecTools c) ∧
    storeDefineTools c = .ok (storeSpecTools c) :=
  ⟨adminDefineTools_eq_spec c, storeDefineTools_eq_spec c⟩

/-- Claim C2 counterexample: on a catalog whose only route carries a
`get` descriptor (a recognized method key) without a usable operation
identifier, `defineTools` does not fail fatally as the claim states: it
returns a tool list (the empty one), silently skipping the entry. -/
theorem missing_id_not_fatal_counterexample :
    adminDefineTools noIdCatalog = .ok [] := rfl

/-- Claim C2 (amended): an operation under a recognized method key with
no determinable identifier is skipped silently; `defineTools` never
propagates an error — on every catalog it succeeds with a tool list, on
both surfaces (the throw inside `wrapPath` is unreachable from
`defineTools`, whose guards only hand `wrapPath` descriptors with a
truthy `operationId`). -/
theorem defineTools_never_fails (c : Catalog) :
    (adminDefineTools c).isOk = true ∧ (storeDefineTools c).isOk = true := by
  rw [adminDefineTools_eq_spec c, storeDefineTools_eq_spec c]
  exact ⟨rfl, rfl⟩

/-- Claim C3: when an operation declares a parameter named `n` and the
surface's body catalog also carries a field named `n`, and the method is
not get, the compiled input schema maps `n` to the body catalog's rule
(applied last by the object spread), not to the rule derived from the
declared parameter's type — on both surfaces. -/
theorem bodyCatalog_overrides_declared_param
    (refPath m nm ds : String) (params : List Parameter) (p : Parameter)
    (n : String) (_hp : p ∈ params) (_hn : p.name = n) (hm : m ≠ "get") :
    (∀ r, (n, r) ∈ adminBodySchema →
      alookup (adminMkTool refPath m nm ds params).inputSchema n = some r) ∧
    (∀ r, (n, r) ∈ storeBodySchema →
      alookup (storeMkTool refPath m nm ds params).inputSchema n = some r) := by
  constructor
  · intro r hr
    show alookup (objSpread (paramSchemaOf params)
      (if m != "get" then adminBodySchema else [])) n = some r
    rw [if_pos (by simpa using hm)]
    exact alookup_objSpread_mem _ (by decide) hr
  · intro r hr
    show alookup (objSpread (paramSchemaOf params)
      (if m != "get" then storeBodySchema else [])) n = some r
    rw [if_pos (by simpa using hm)]
    exact alookup_objSpread_mem _ (by decide) hr

/-- Claim C3 witness: a string-typed declared parameter named `metadata`
on a post operation gets the admin catalog's unknown-typed rule
(resp. the store catalog's record rule), not the string rule. -/
theorem bodyCatalog_overrides_witness :
    alookup ((adminMkTool "/x" "post" "N" ""
        [⟨"metadata", "query", ⟨"string"⟩⟩]).inputSchema) "metadata"
      = some .unknownOpt ∧
    alookup ((storeMkTool "/x" "post" "N" ""
        [⟨"metadata", "query", ⟨"string"⟩⟩]).inputSchema) "metadata"
      = some .recordUnknownOpt :=
  ⟨(bodyCatalog_overrides_declared_param "/x" "post" "N" ""
      [⟨"metadata", "query", ⟨"string"⟩⟩] ⟨"metadata", "query", ⟨"string"⟩⟩
      "metadata" (by decide) rfl (by decide)).1 .unknownOpt (by decide),
   (bodyCatalog_overrides_declared_param "/x" "post" "N" ""
      [⟨"metadata", "query", ⟨"string"⟩⟩] ⟨"metadata", "query", ⟨"string"⟩⟩
      "metadata" (by decide) rfl (by decide)).2 .recordUnknownOpt (by decide)⟩

/-- Claim C4: contrary to the claim (and to the source's own comment
"Build body from remaining inputs (exclude query/header/path params)"),
the body filter excludes only query- and path-parameter names, so the
value supplied under a declared header parameter's name IS forwarded in
the dispatched body of a non-get request. -/
theorem header_param_value_forwarded_in_body :
    ((adminMkTool "/admin/custom" "post" "CreateThing" ""
        [⟨"x-api-key", "header", ⟨"string"⟩⟩]).handler "tok"
        [("x-api-key", .vStr "secret")]).body
      = some [("x-api-key", Value.vStr "secret")] := rfl

/-- Claim C5: a get request dispatches no body at all; a non-get request
dispatches exactly the input entries whose keys are not declared path-
or query-parameter names, with their original values. -/
theorem residual_body_dispatch (refPath m nm ds tok : String)
    (params : List Parameter) (input : List (String × Value))
    (hnd : (input.map Prod.fst).Nodup) :
    (m = "get" →
      ((adminMkTool refPath m nm ds params).handler tok input).body = none) ∧
    (m ≠ "get" →
      ((adminMkTool refPath m nm ds params).handler tok input).body
        = some (specResidualBody
            ((params.filter (fun p => p.«in» = "query")).map (·.name))
            ((params.filter (fun p => p.«in» = "path")).map (·.name))
            input)) := by
  rw [adminMkTool_handler]
  constructor
  · intro hm
    show (if m = "get" then none else _) = none
    rw [if_pos hm]
  · intro hm
    show (if m = "get" then none else some _) = some _
    rw [if_neg hm, buildBody_eq_spec m _ _ input hm hnd]

/-- Claim C5 witness: the spec scenario — a post tool invoked with
`\x7bname: "X", id: "skip-me"\x7d` where `id` is a declared path
parameter dispatches the body `\x7bname: "X"\x7d` only; the same input
on a get tool dispatches no body. -/
theorem residual_body_dispatch_witness :
    ((adminMkTool "/admin/products/\x7bid\x7d" "post" "CreateProduct" ""
        [⟨"id", "path", ⟨"string"⟩⟩]).handler ""
        [("name", .vStr "X"), ("id", .vStr "skip-me")]).body
      = some [("name", Value.vStr "X")] ∧
    ((adminMkTool "/admin/products/\x7bid\x7d" "get" "GetProduct" ""
        [⟨"id", "path", ⟨"string"⟩⟩]).handler ""
        [("name", .vStr "X"), ("id", .vStr "skip-me")]).body
      = none := by
  constructor
  · rw [(residual_body_dispatch "/admin/products/\x7bid\x7d" "post"
      "CreateProduct" "" "" [⟨"id", "path", ⟨"string"⟩⟩]
      [("name", .vStr "X"), ("id", .vStr "skip-me")] (by decide)).2 (by decide)]
    rfl
  · exact (residual_body_dispatch "/admin/products/\x7bid\x7d" "get"
      "GetProduct" "" "" [⟨"id", "path", ⟨"string"⟩⟩]
      [("name", .vStr "X"), ("id", .vStr "skip-me")] (by decide)).1 rfl

/-- Claim C6 counterexample: the claim fails on the code in two ways.
With input `\x7bid: "$&"\x7d` the dispatched path is the template
itself, not the template with the placeholder replaced by the value's
string representation `$&` — JS `String.replace` expands `$&` to the
matched substring `\x7bid\x7d`. And with declared path parameters `a`,
`b` (in that order) on template `/x/\x7ba\x7d/\x7bb\x7d` and input
`\x7ba: "\x7bb\x7d", b: "X"\x7d`, the value of `b` is consumed by the
placeholder text that `a`'s substitution injected, and `b`'s own
template placeholder is left verbatim even though `b` is non-null —
the path is not the per-placeholder substitution the claim states. -/
theorem path_param_substitution_counterexample :
    (((adminMkTool "/store/products/\x7bid\x7d" "get" "GetProduct" ""
        [⟨"id", "path", ⟨"string"⟩⟩]).handler "" [("id", .vStr "$&")]).path
      = "/store/products/\x7bid\x7d" ∧
     "/store/products/\x7bid\x7d" ≠ "/store/products/$&") ∧
    (((adminMkTool "/x/\x7ba\x7d/\x7bb\x7d" "get" "GetThing" ""
        [⟨"a", "path", ⟨"string"⟩⟩, ⟨"b", "path", ⟨"string"⟩⟩]).handler ""
        [("a", .vStr "\x7bb\x7d"), ("b", .vStr "X")]).path
      = "/x/X/\x7bb\x7d" ∧
     "/x/X/\x7bb\x7d" ≠ "/x/\x7bb\x7d/X") :=
  ⟨⟨rfl, by decide⟩, ⟨rfl, by decide⟩⟩

/-- Claim C6 (amended): the declared path-parameter names are processed
in declaration order, each step acting on the path left by the previous
steps (`ns₁` the names before `n`, `ns₂` the names after). A name whose
input value is absent or null contributes nothing — the fold simply
skips it, its placeholder stays verbatim and no error is raised. A name
with a present non-null value has the first occurrence of its
`\x7bname\x7d` placeholder in the current path replaced by the JS
`GetSubstitution` expansion of the value's string representation; in
particular, when that representation contains no dollar character and
the placeholder's shown occurrence in the current path is the first, it
is inserted literally and processing continues on the remaining
names. -/
theorem path_param_substitution (refPath m nm ds tok n : String)
    (params : List Parameter) (input : List (String × Value))
    (ns₁ ns₂ : List String)
    (hpp : (params.filter (fun p => p.«in» = "path")).map (·.name)
      = ns₁ ++ n :: ns₂) :
    (∀ v a b, alookup input n = some v → v ≠ .vNull →
      (∀ c ∈ v.toJsString.data, c ≠ dollarChar) →
      buildFinalPath refPath ns₁ input = a ++ ("\x7b" ++ n ++ "\x7d") ++ b →
      (∀ i, i < a.data.length →
        ¬ ("\x7b" ++ n ++ "\x7d").data.isPrefixOf
            ((a ++ ("\x7b" ++ n ++ "\x7d") ++ b).data.drop i) = true) →
      ((adminMkTool refPath m nm ds params).handler tok input).path
        = buildFinalPath (a ++ v.toJsString ++ b) ns₂ input) ∧
    ((alookup input n = none ∨ alookup input n = some .vNull) →
      ((adminMkTool refPath m nm ds params).handler tok input).path
        = buildFinalPath refPath (ns₁ ++ ns₂) input) := by
  rw [adminMkTool_handler]
  have hsplit : ns₁ ++ n :: ns₂ = (ns₁ ++ [n]) ++ ns₂ := by simp
  constructor
  · intro v a b hv hnn hndol hdec huniq
    show buildFinalPath refPath _ input = _
    rw [hpp, hsplit, buildFinalPath_append, buildFinalPath_append,
      buildFinalPath_single_present _ n input v hv hnn, hdec,
      replaceFirst_of_unique a ("\x7b" ++ n ++ "\x7d") b v.toJsString
        hndol huniq]
  · intro h
    show buildFinalPath refPath _ input = _
    rw [hpp, hsplit, buildFinalPath_append, buildFinalPath_append,
      buildFinalPath_single_absent _ n input h, ← buildFinalPath_append]

/-- Claim C6 witness: template `/store/products/\x7bid\x7d` with input
`\x7bid: "42"\x7d` resolves to `/store/products/42`; with no `id` the
template is returned with the placeholder unresolved. -/
theorem path_param_substitution_witness :
    ((adminMkTool "/store/products/\x7bid\x7d" "get" "GetProduct" ""
        [⟨"id", "path", ⟨"string"⟩⟩]).handler "" [("id", .vStr "42")]).path
      = "/store/products/42" ∧
    ((adminMkTool "/store/products/\x7bid\x7d" "get" "GetProduct" ""
        [⟨"id", "path", ⟨"string"⟩⟩]).handler "" []).path
      = "/store/products/\x7bid\x7d" := by
  constructor
  · have h := (path_param_substitution "/store/products/\x7bid\x7d" "get"
      "GetProduct" "" "" "id" [⟨"id", "path", ⟨"string"⟩⟩]
      [("id", .vStr "42")] [] [] (by decide)).1 (.vStr "42")
      "/store/products/" "" rfl (fun hc => Value.noConfusion hc)
      (by decide) (by decide) (by decide)
    exact h.trans (by decide)
  · exact ((path_param_substitution "/store/products/\x7bid\x7d" "get"
      "GetProduct" "" "" "id" [⟨"id", "path", ⟨"string"⟩⟩] [] [] []
      (by decide)).2 (Or.inl rfl)).trans (by decide)

/-- Claim C7: for the declared query-parameter names (pairwise distinct
within an operation), the dispatched query is their concatenated
contributions in declaration order: nothing for a null/undefined value,
one entry per element (duplicates allowed, order kept) for an array
value, and a single stringified entry otherwise. -/
theorem query_param_serialization (refPath m nm ds tok : String)
    (params : List Parameter) (input : List (String × Value))
    (hnd : ((params.filter (fun p => p.«in» = "query")).map (·.name)).Nodup) :
    ((adminMkTool refPath m nm ds params).handler tok input).query
      = ((params.filter (fun p => p.«in» = "query")).map (·.name)).flatMap
          (specQueryEntries input) := by
  rw [adminMkTool_handler]
  exact buildQuery_eq_spec _ input hnd

/-- Claim C7 witness: input `\x7btags: ["a","b"]\x7d` on a declared
query parameter `tags` yields the query entries `tags=a&tags=b` in that
order. -/
theorem query_param_serialization_witness :
    ((adminMkTool "/admin/products" "get" "ListProducts" ""
        [⟨"tags", "query", ⟨"array"⟩⟩]).handler ""
        [("tags", .vArr [.vStr "a", .vStr "b"])]).query
      = [("tags", "a"), ("tags", "b")] := by
  rw [query_param_serialization "/admin/products" "get" "ListProducts" ""
    "" [⟨"tags", "query", ⟨"array"⟩⟩]
    [("tags", .vArr [.vStr "a", .vStr "b"])] (by decide)]
  rfl

/-- Claim C8: compilation is a function of the catalog alone — two runs
of `defineTools` on the same catalog yield structurally identical tool
sequences (same names in the same order, same input-schema keys), on
both surfaces. -/
theorem defineTools_deterministic (c : Catalog) (ts₁ ts₂ us₁ us₂ : List Tool)
    (h1 : adminDefineTools c = .ok ts₁) (h2 : adminDefineTools c = .ok ts₂)
    (h3 : storeDefineTools c = .ok us₁) (h4 : storeDefineTools c = .ok us₂) :
    ts₁.map Tool.name = ts₂.map Tool.name ∧
    ts₁.map (fun t => t.inputSchema.map Prod.fst)
      = ts₂.map (fun t => t.inputSchema.map Prod.fst) ∧
    us₁.map Tool.name = us₂.map Tool.name ∧
    us₁.map (fun t => t.inputSchema.map Prod.fst)
      = us₂.map (fun t => t.inputSchema.map Prod.fst) := by
  rw [h1] at h2
  rw [h3] at h4
  injection h2 with h2
  injection h4 with h4
  subst h2
  subst h4
  exact ⟨rfl, rfl, rfl, rfl⟩

/-- Claim C8 witness: both compilers applied twice to the scenario
catalog agree on names and schema keys. -/
theorem defineTools_deterministic_witness :
    (adminSpecTools adminProductsCatalog).map Tool.name
      = (adminSpecTools adminProductsCatalog).map Tool.name ∧
    (adminSpecTools adminProductsCatalog).map
        (fun t => t.inputSchema.map Prod.fst)
      = (adminSpecTools adminProductsCatalog).map
          (fun t => t.inputSchema.map Prod.fst) ∧
    (storeSpecTools adminProductsCatalog).map Tool.name
      = (storeSpecTools adminProductsCatalog).map Tool.name ∧
    (storeSpecTools adminProductsCatalog).map
        (fun t => t.inputSchema.map Prod.fst)
      = (storeSpecTools adminProductsCatalog).map
          (fun t => t.inputSchema.map Prod.fst) :=
  defineTools_deterministic adminProductsCatalog _ _ _ _
    (adminDefineTools_eq_spec adminProductsCatalog)
    (adminDefineTools_eq_spec adminProductsCatalog)
    (storeDefineTools_eq_spec adminProductsCatalog)
    (storeDefineTools_eq_spec adminProductsCatalog)

/-- Claim C9: every admin tool is named `Admin` followed by the
operation identifier; in particular the scenario catalog (one route
`/admin/products/\x7bid\x7d` with `get.operationId = "GetProduct"` and
`delete.operationId = "DeleteProduct"`) compiles to exactly two tools
named `AdminGetProduct` and `AdminDeleteProduct`. -/
theorem admin_tool_naming :
    (∀ c ts, adminDefineTools c = .ok ts →
      ts.map Tool.name
        = c.flatMap (fun e => (specQualifyingOps e.2).map
            (fun md => "Admin" ++ md.2.operationId))) ∧
    (∃ ts, adminDefineTools adminProductsCatalog = .ok ts ∧
      ts.map Tool.name = ["AdminGetProduct", "AdminDeleteProduct"] ∧
      ts.length = 2) := by
  constructor
  · intro c ts h
    rw [adminDefineTools_eq_spec] at h
    injection h with h
    subst h
    simp [adminSpecTools, List.map_flatMap, adminMkTool, Function.comp_def]
  · exact ⟨adminSpecTools adminProductsCatalog,
      adminDefineTools_eq_spec adminProductsCatalog, rfl, rfl⟩

/-- Claim C9 witness: the naming law applied to the scenario catalog
yields the two `Admin`-prefixed names. -/
theorem admin_tool_naming_witness :
    (adminSpecTools adminProductsCatalog).map Tool.name
      = ["AdminGetProduct", "AdminDeleteProduct"] :=
  (admin_tool_naming.1 adminProductsCatalog
    (adminSpecTools adminProductsCatalog)
    (adminDefineTools_eq_spec adminProductsCatalog)).trans (by rfl)

/-- Claim C10: the admin token field is initialized to the empty string
at construction, and an admin handler invoked before `init` has run
(token still at its initial value) does not fail locally: it returns a
dispatched request whose Authorization header is `Bearer ` followed by
the empty string. -/
theorem preinit_token_bearer_empty (c : Catalog) (ts : List Tool) (t : Tool)
    (input : List (String × Value))
    (h : adminDefineTools c = .ok ts) (ht : t ∈ ts) :
    adminTokenInit = "" ∧
    (t.handler adminTokenInit input).headers
      = [("Content-Type", "application/json"),
         ("Accept", "application/json"),
         ("Authorization", "Bearer ")] := by
  refine ⟨rfl, ?_⟩
  rw [adminDefineTools_eq_spec] at h
  injection h with h
  subst h
  rcases List.mem_flatMap.mp ht with ⟨e, -, hmem⟩
  rcases List.mem_map.mp hmem with ⟨md, -, hmk⟩
  rw [← hmk, adminMkTool_handler]
  simp [adminTokenInit, String.append_empty]

/-- Claim C10 witness: the first tool of the scenario catalog, invoked
with the construction-time token, dispatches with Authorization header
`Bearer `. -/
theorem preinit_token_bearer_empty_witness :
    adminTokenInit = "" ∧
    ((adminMkTool "/admin/products/\x7bid\x7d" "get" "GetProduct"
        "Get a product" [⟨"id", "path", ⟨"string"⟩⟩]).handler
        adminTokenInit []).headers
      = [("Content-Type", "application/json"),
         ("Accept", "application/json"),
         ("Authorization", "Bearer ")] :=
  preinit_token_bearer_empty adminProductsCatalog
    (adminSpecTools adminProductsCatalog)
    (adminMkTool "/admin/products/\x7bid\x7d" "get" "GetProduct"
      "Get a product" [⟨"id", "path", ⟨"string"⟩⟩]) []
    (adminDefineTools_eq_spec adminProductsCatalog)
    (List.Mem.head _)

end Medusa

